import Mathlib

/-!
Shallow embedding of the peer-coordination core of `debugpy-attacher`
(`src/portLockManager.ts`, `src/statusBarManager.ts`, and the process
discovery service), together with theorems settling the specification
claims about it.

Timestamps are modelled as `Int` (JavaScript `Date.now()` values are exact
integers in the relevant range).  Each shared file is modelled as a
`FileState`: absent, unreadable (an I/O error or a JSON parse failure while
reading it, both of which throw in the source and are handled by the same
`catch` blocks), or a parsed record.  Writes are modelled as succeeding
atomically; every operation takes the current clock value `now` as a
parameter (one value per call, standing for the `Date.now()` reads the call
performs).
-/

/-- State of one shared file: missing, unreadable (I/O or parse error on
read), or holding a parsed record. -/
inductive FileState (α : Type) where
  | absent : FileState α
  | err : FileState α
  | ok (r : α) : FileState α
deriving DecidableEq, Repr

/-- The record written to `active-window.lock`
(`portLockManager.ts`, `updateActiveWindow`):
`{ windowId, timestamp: Date.now(), lastActivity: this.lastUserActivity }`. -/
structure ActiveWindowRecord where
  windowId : String
  timestamp : Int
  lastActivity : Int
deriving DecidableEq, Repr

/-- The record written to `port-<port>.lock`
(`portLockManager.ts`, `tryAcquirePortLock`):
`{ windowId, port, timestamp: Date.now(), userActivity: this.lastUserActivity }`. -/
structure PortLockRecord where
  windowId : String
  port : String
  timestamp : Int
  userActivity : Int
deriving DecidableEq, Repr

/-- The peer-local fields of `PortLockManager`: the window id generated at
startup and the in-memory `lastUserActivity` timestamp. -/
structure Peer where
  windowId : String
  lastUserActivity : Int
deriving DecidableEq, Repr

/-- The shared lock directory: the single active-window file plus one lease
file per port string. -/
structure SharedStore where
  activeWindow : FileState ActiveWindowRecord
  locks : String → FileState PortLockRecord

/-- `updateActiveWindow` (`portLockManager.ts:96-108`): the record this peer
writes when it claims the active window. -/
def updateActiveWindow (p : Peer) (now : Int) : ActiveWindowRecord :=
  { windowId := p.windowId, timestamp := now, lastActivity := p.lastUserActivity }

/-- `isActiveWindow` (`portLockManager.ts:110-135`).  Returns the boolean
result together with the active-window file state after the call (the only
write the call can make).  A missing file and a read/parse failure both take
the claim-ownership path (`catch` at line 131 mirrors the `!existsSync`
branch at line 113). -/
def isActiveWindow (p : Peer) (now : Int) (aw : FileState ActiveWindowRecord) :
    Bool × FileState ActiveWindowRecord :=
  match aw with
  | .absent => (true, .ok (updateActiveWindow p now))
  | .err => (true, .ok (updateActiveWindow p now))
  | .ok data =>
    if p.lastUserActivity > data.lastActivity + 1000 then
      (true, .ok (updateActiveWindow p now))
    else if now - data.lastActivity > 15000 then
      (true, .ok (updateActiveWindow p now))
    else
      (data.windowId == p.windowId, .ok data)

/-- Pointwise update of the per-port lease files. -/
def setLock (locks : String → FileState PortLockRecord) (port : String)
    (v : FileState PortLockRecord) : String → FileState PortLockRecord :=
  fun k => if k = port then v else locks k

/-- Lines 37-48 of `tryAcquirePortLock`: the second `isActiveWindow` check
followed by the lease write. -/
def tryAcquireAfterCheck (p : Peer) (now : Int) (port : String) (s1 : SharedStore) :
    Bool × SharedStore :=
  let r2 := isActiveWindow p now s1.activeWindow
  let s2 : SharedStore := { s1 with activeWindow := r2.2 }
  let newRec : PortLockRecord :=
    { windowId := p.windowId, port := port, timestamp := now,
      userActivity := p.lastUserActivity }
  if !r2.1 then (false, s2)
  else (true, { s2 with locks := setLock s2.locks port (.ok newRec) })

/-- `tryAcquirePortLock` (`portLockManager.ts:20-52`).  Returns the boolean
result and the store after the call.  An unreadable lease file makes
`JSON.parse` throw at line 30, which the outer `catch` (line 49) turns into
`false`; the active-window writes made before the throw persist. -/
def tryAcquirePortLock (p : Peer) (now : Int) (port : String) (s : SharedStore) :
    Bool × SharedStore :=
  let r1 := isActiveWindow p now s.activeWindow
  let s1 : SharedStore := { s with activeWindow := r1.2 }
  if !r1.1 then (false, s1)
  else
    match s1.locks port with
    | .err => (false, s1)
    | .ok lockData =>
      if now - lockData.timestamp < 30000 && lockData.windowId != p.windowId then
        (false, s1)
      else
        tryAcquireAfterCheck p now port s1
    | .absent => tryAcquireAfterCheck p now port s1

/-- `releasePortLock` (`portLockManager.ts:54-66`): delete the lease file for
`port` only when it parses and its `windowId` matches this peer; a missing or
unreadable file (the `catch` at line 63) leaves the store unchanged. -/
def releasePortLock (p : Peer) (port : String) (s : SharedStore) : SharedStore :=
  match s.locks port with
  | .ok lockData =>
    if lockData.windowId = p.windowId then
      { s with locks := setLock s.locks port .absent }
    else s
  | .err => s
  | .absent => s

/-- A file in the lock directory as seen by the stale sweep, which parses
every file generically and reads its `timestamp` field: either a record that
parsed (with its owner id and timestamp) or one that failed to parse. -/
inductive SweepFile where
  | parsed (windowId : String) (timestamp : Int) : SweepFile
  | corrupt : SweepFile
deriving DecidableEq, Repr

/-- The active-window file lives in the same directory the sweep scans; its
generic `timestamp` field is the record's `writtenAt`. -/
def ActiveWindowRecord.toSweepFile (r : ActiveWindowRecord) : SweepFile :=
  .parsed r.windowId r.timestamp

/-- A lease file as seen by the sweep. -/
def PortLockRecord.toSweepFile (r : PortLockRecord) : SweepFile :=
  .parsed r.windowId r.timestamp

/-- The per-file keep condition of `cleanupStaleLocks`
(`portLockManager.ts:158-168`): a file survives the sweep iff it parses and
`now - data.timestamp` is at most 60000 ms. -/
def keepFile (now : Int) : SweepFile → Bool
  | .parsed _ t => now - t ≤ 60000
  | .corrupt => false

/-- `cleanupStaleLocks` (`portLockManager.ts:150-173`): scan every file of
the lock directory and delete those whose timestamp age exceeds 60 s and
those that fail to parse.  Modelled as the list of files that remain. -/
def cleanupStaleLocks (now : Int) (files : List SweepFile) : List SweepFile :=
  files.filter (keepFile now)

/-- A discovered process tuple (`pythonProcessService.ts`, interface
`PythonProcess`). -/
structure PythonProcess where
  pid : String
  port : String
  script : String
  command : String
deriving DecidableEq, Repr

/-- The character class of the regex `\s` restricted to ASCII, which is all
that the modelled command lines contain. -/
def isWsChar (c : Char) : Bool :=
  c = ' ' || c = '\t' || c = '\n' || c = '\r' || c = '\x0b' || c = '\x0c'

/-- Splitting on runs of whitespace, as `line.trim().split(/\s+/)` does for
the token list (empty pieces never appear because the line is trimmed; an
all-whitespace line gives fewer than 2 parts either way). -/
def tokensAux (cur : List Char) : List Char → List (List Char)
  | [] => if cur = [] then [] else [cur.reverse]
  | c :: rest =>
    if isWsChar c then
      if cur = [] then tokensAux [] rest else cur.reverse :: tokensAux [] rest
    else tokensAux (c :: cur) rest

/-- Whitespace-token list of a line. -/
def splitWsTokens (s : String) : List (List Char) :=
  tokensAux [] s.toList

/-- Match a literal character sequence at the head of the input, returning
the rest. -/
def dropLit : List Char → List Char → Option (List Char)
  | [], s => some s
  | _ :: _, [] => none
  | l :: ls, c :: cs => if c = l then dropLit ls cs else none

/-- The regex `--port\s+(\d+)` anchored at the current position: the literal
`--port`, one or more whitespace characters, then the (greedy, hence
maximal) digit run that is the capture. -/
def matchPortHere (s : List Char) : Option (List Char) :=
  match dropLit ("--port".toList) s with
  | none => none
  | some r =>
    let ws := r.takeWhile isWsChar
    if ws = [] then none
    else
      let ds := (r.drop ws.length).takeWhile Char.isDigit
      if ds = [] then none else some ds

/-- Leftmost match of `--port\s+(\d+)` (`parseUnixProcess`, line 79): try
each start position left to right. -/
def findPortIn : List Char → Option (List Char)
  | [] => none
  | c :: rest =>
    match matchPortHere (c :: rest) with
    | some ds => some ds
    | none => findPortIn rest

/-- The character class `[^\/\s]` of the script regex. -/
def isScriptChar (c : Char) : Bool :=
  c ≠ '/' && !isWsChar c

/-- On the reversed maximal `[^\/\s]` run, find the first suffix of the form
`'y' :: 'p' :: '.' :: _ :: _`; reversed back this is the longest prefix of
the run that ends in `.py` with at least one character before it — exactly
what the greedy backtracking of `([^\/\s]+\.py)` captures at this start
position. -/
def pyCapRev : List Char → Option (List Char)
  | 'y' :: 'p' :: '.' :: c :: rest => some ('y' :: 'p' :: '.' :: c :: rest)
  | _ :: rest => pyCapRev rest
  | [] => none

/-- The regex `([^\/\s]+\.py)` anchored at the current position. -/
def matchScriptHere (s : List Char) : Option (List Char) :=
  (pyCapRev (s.takeWhile isScriptChar).reverse).map List.reverse

/-- Leftmost match of `([^\/\s]+\.py)` (`parseUnixProcess`, line 83). -/
def findScriptIn : List Char → Option (List Char)
  | [] => none
  | c :: rest =>
    match matchScriptHere (c :: rest) with
    | some sc => some sc
    | none => findScriptIn rest

/-- `parseUnixProcess` (`pythonProcessService.ts:72-89`): split the line on
whitespace, require at least pid and one command token, re-join the command
with single spaces, extract the port; a port already in `seenPorts` yields
`null`, otherwise the tuple is built (script defaulting to
`"Unknown script"`). -/
def parseUnixProcess (seenPorts : List String) (line : String) :
    Option PythonProcess :=
  match splitWsTokens line with
  | pid :: c0 :: crest =>
    let command := List.intercalate [' '] (c0 :: crest)
    match findPortIn command with
    | some ds =>
      let port : String := ⟨ds⟩
      if seenPorts.contains port then none
      else
        let script : String :=
          match findScriptIn command with
          | some sc => ⟨sc⟩
          | none => "Unknown script"
        some { pid := ⟨pid⟩, port := port, script := script, command := ⟨command⟩ }
    | none => none
  | _ => none

/-- JavaScript `String.prototype.trim`: drop whitespace from both ends. -/
def jsTrim (s : String) : String :=
  ⟨(((s.toList.dropWhile isWsChar).reverse).dropWhile isWsChar).reverse⟩

/-- JavaScript `split('\n')`: cut the character list at every newline. -/
def splitNl : List Char → List (List Char)
  | [] => [[]]
  | c :: rest =>
    if c = '\n' then [] :: splitNl rest
    else
      match splitNl rest with
      | l :: ls => (c :: l) :: ls
      | [] => [[c]]

/-- `output.split('\n').filter(line => line.trim())`
(`pythonProcessService.ts:30`). -/
def splitLines (output : String) : List String :=
  ((splitNl output.toList).map (fun l => (⟨l⟩ : String))).filter
    (fun l => jsTrim l ≠ "")

/-- The accumulation loop of `findPythonProcesses`
(`pythonProcessService.ts:32-37`): each line is parsed against the current
`seenPorts` set, and a successful parse appends the tuple and records its
port as seen. -/
def processLines (seen : List String) (acc : List PythonProcess) :
    List String → List PythonProcess
  | [] => acc
  | l :: ls =>
    match parseUnixProcess seen l with
    | some pr => processLines (pr.port :: seen) (acc ++ [pr]) ls
    | none => processLines seen acc ls

/-- `findPythonProcesses` (`pythonProcessService.ts:11-42`), Unix path, as a
function of the `exec` callback's inputs: an error or an empty / blank
output resolves to the empty list, otherwise the nonblank lines are parsed
in order with first-match-wins port deduplication. -/
def findPythonProcesses (err : Bool) (output : String) : List PythonProcess :=
  if err || jsTrim output = "" then []
  else processLines [] [] (splitLines output)

/-- `handleAutoAttach` (`statusBarManager.ts:77`): the processes whose port
is not already in `knownPorts`; only these can reach a
`tryAcquirePortLock` call and the protected attach action. -/
def newPorts (knownPorts : List String) (processes : List PythonProcess) :
    List PythonProcess :=
  processes.filter (fun pr => !knownPorts.contains pr.port)

/-- `updateStatusBar` (`statusBarManager.ts:53-74`) as a state transition on
`knownPorts`: after a poll over `processes`, `knownPorts` becomes the set of
currently discovered ports (line 56 and line 70). -/
def updateStatusBar (processes : List PythonProcess) : List String :=
  processes.map (fun pr => pr.port)

/-! ## Helper lemmas -/

/-- If one `isActiveWindow` call returns true, an immediate second call (same
clock value, no interleaving write) also returns true: the first call either
left a record owned by this peer or wrote one. -/
theorem isActiveWindow_stable (p : Peer) (now : Int)
    (aw : FileState ActiveWindowRecord)
    (h : (isActiveWindow p now aw).1 = true) :
    (isActiveWindow p now (isActiveWindow p now aw).2).1 = true := by
  cases aw with
  | absent =>
    simp only [isActiveWindow, updateActiveWindow]
    split_ifs <;> simp
  | err =>
    simp only [isActiveWindow, updateActiveWindow]
    split_ifs <;> simp
  | ok data =>
    simp only [isActiveWindow, updateActiveWindow] at h ⊢
    split_ifs at h ⊢ <;> simp_all
    split_ifs <;> simp_all

/-- `tryAcquireAfterCheck` succeeds whenever the store it receives came out
of a successful `isActiveWindow` call at the same clock value. -/
theorem tryAcquireAfterCheck_true (p : Peer) (now : Int) (port : String)
    (s1 : SharedStore)
    (h : (isActiveWindow p now s1.activeWindow).1 = true) :
    (tryAcquireAfterCheck p now port s1).1 = true ∧
    (tryAcquireAfterCheck p now port s1).2.locks port =
      .ok { windowId := p.windowId, port := port, timestamp := now,
            userActivity := p.lastUserActivity } := by
  simp [tryAcquireAfterCheck, h, setLock]

/-! ## Claim theorems -/

/-- C1: `isActiveWindow` follows the four-case decision rule in order:
(1) no readable ActiveWindowRecord (missing file, or a read/parse failure,
which the source treats as case 1): write
`{ownerPeerId: self, writtenAt: now, ownerLastActivity: self.lastActivityTimestamp}`
and return true; (2) this peer's activity exceeds the record's
`ownerLastActivity` by strictly more than 1000 ms: claim ownership, return
true; (3) `now` minus the record's `ownerLastActivity` exceeds 15000 ms:
claim ownership, return true; (4) otherwise return true iff the record's
owner id equals this peer's id, writing nothing. -/
theorem isActiveWindow_four_cases (p : Peer) (now : Int)
    (aw : FileState ActiveWindowRecord) :
    ((aw = .absent ∨ aw = .err) →
      isActiveWindow p now aw = (true, .ok (updateActiveWindow p now))) ∧
    (∀ data, aw = .ok data →
      (p.lastUserActivity > data.lastActivity + 1000 →
        isActiveWindow p now aw = (true, .ok (updateActiveWindow p now))) ∧
      (¬ p.lastUserActivity > data.lastActivity + 1000 →
        now - data.lastActivity > 15000 →
        isActiveWindow p now aw = (true, .ok (updateActiveWindow p now))) ∧
      (¬ p.lastUserActivity > data.lastActivity + 1000 →
        ¬ now - data.lastActivity > 15000 →
        isActiveWindow p now aw = (data.windowId == p.windowId, aw))) := by
  constructor
  · rintro (rfl | rfl) <;> rfl
  · rintro data rfl
    refine ⟨fun h1 => ?_, fun h1 h2 => ?_, fun h1 h2 => ?_⟩
    · simp [isActiveWindow, h1]
    · simp [isActiveWindow, h1, h2]
    · simp [isActiveWindow, h1, h2]

/-- Witness for C1: a peer facing an empty store takes case 1, writing a
fresh record and returning true. -/
theorem isActiveWindow_four_cases_w :
    isActiveWindow ⟨"w", 5⟩ 0 .absent = (true, .ok (updateActiveWindow ⟨"w", 5⟩ 0)) :=
  (isActiveWindow_four_cases ⟨"w", 5⟩ 0 .absent).1 (Or.inl rfl)

/-- C4: `releasePortLock` deletes the lease file for `port` only when the
record exists and its owner id equals the caller's; a lease owned by another
peer, a missing file, and an unreadable file all leave the store unchanged
(the call never throws: every error path is swallowed). -/
theorem releasePortLock_spec (p : Peer) (port : String) (s : SharedStore) :
    (∀ r, s.locks port = .ok r → r.windowId = p.windowId →
      releasePortLock p port s = { s with locks := setLock s.locks port .absent }) ∧
    (∀ r, s.locks port = .ok r → r.windowId ≠ p.windowId →
      releasePortLock p port s = s) ∧
    (s.locks port = .absent → releasePortLock p port s = s) ∧
    (s.locks port = .err → releasePortLock p port s = s) := by
  refine ⟨fun r hr hw => ?_, fun r hr hw => ?_, fun h => ?_, fun h => ?_⟩
  · simp [releasePortLock, hr, hw]
  · simp [releasePortLock, hr, hw]
  · simp [releasePortLock, h]
  · simp [releasePortLock, h]

/-- Witness for C4: releasing a lease owned by another peer leaves the store
unchanged. -/
theorem releasePortLock_spec_w :
    releasePortLock ⟨"me", 0⟩ "5678"
      ⟨.absent, fun k => if k = "5678" then .ok ⟨"other", "5678", 0, 0⟩ else .absent⟩ =
    ⟨.absent, fun k => if k = "5678" then .ok ⟨"other", "5678", 0, 0⟩ else .absent⟩ :=
  (releasePortLock_spec ⟨"me", 0⟩ "5678" _).2.1 ⟨"other", "5678", 0, 0⟩
    (by simp) (by decide)

/-- C2: `tryAcquirePortLock` fails when the initial active-window check
fails; fails when a readable lease for the port is younger than 30000 ms and
owned by another peer; and in every remaining readable case (no lease, an
expired lease, or a self-owned lease) the re-check passes (in this
sequential model it cannot fail once the first check passed) and the call
overwrites the lease file with
`{windowId: self, port, timestamp: now, userActivity: self.lastUserActivity}`
and returns true. -/
theorem tryAcquirePortLock_spec (p : Peer) (now : Int) (port : String)
    (s : SharedStore) :
    ((isActiveWindow p now s.activeWindow).1 = false →
      (tryAcquirePortLock p now port s).1 = false) ∧
    (∀ r, s.locks port = .ok r → now - r.timestamp < 30000 →
      r.windowId ≠ p.windowId → (tryAcquirePortLock p now port s).1 = false) ∧
    ((isActiveWindow p now s.activeWindow).1 = true →
      (s.locks port = .absent ∨
        ∃ r, s.locks port = .ok r ∧
          ¬(now - r.timestamp < 30000 ∧ r.windowId ≠ p.windowId)) →
      (tryAcquirePortLock p now port s).1 = true ∧
      (tryAcquirePortLock p now port s).2.locks port =
        .ok { windowId := p.windowId, port := port, timestamp := now,
              userActivity := p.lastUserActivity }) := by
  refine ⟨fun h1 => ?_, fun r hr h30 hw => ?_, fun h1 hfree => ?_⟩
  · simp [tryAcquirePortLock, h1]
  · cases h1 : (isActiveWindow p now s.activeWindow).1 with
    | false => simp [tryAcquirePortLock, h1]
    | true => simp [tryAcquirePortLock, h1, hr, h30, hw]
  · have h2 := isActiveWindow_stable p now s.activeWindow h1
    have h3 := tryAcquireAfterCheck_true p now port
      { s with activeWindow := (isActiveWindow p now s.activeWindow).2 } h2
    rcases hfree with habs | ⟨r, hr, hnb⟩
    · simpa [tryAcquirePortLock, h1, habs] using h3
    · have hnb2 : (now - r.timestamp < 30000 && r.windowId != p.windowId) = false := by
        by_cases h30 : now - r.timestamp < 30000
        · have hw : r.windowId = p.windowId := by
            by_contra hne
            exact hnb ⟨h30, hne⟩
          simp [hw]
        · simp [h30]
      simpa [tryAcquirePortLock, h1, hr, hnb2] using h3

/-- Witness for C2: against an empty shared store, acquisition succeeds and
writes the lease record. -/
theorem tryAcquirePortLock_spec_w :
    (tryAcquirePortLock ⟨"w1", 0⟩ 0 "5678" ⟨.absent, fun _ => .absent⟩).1 = true ∧
    (tryAcquirePortLock ⟨"w1", 0⟩ 0 "5678" ⟨.absent, fun _ => .absent⟩).2.locks "5678" =
      .ok ⟨"w1", "5678", 0, 0⟩ :=
  (tryAcquirePortLock_spec ⟨"w1", 0⟩ 0 "5678" ⟨.absent, fun _ => .absent⟩).2.2
    (by decide) (Or.inl rfl)

/-- C10: whenever `tryAcquirePortLock` returns false — failed first check,
fresh foreign lease, or an exception caught by the outer `catch` — the lease
files are exactly as before the call; only the true-returning path writes a
lease file (the active-window file may still have been rewritten by the
embedded checks). -/
theorem tryAcquirePortLock_false_no_write (p : Peer) (now : Int) (port : String)
    (s : SharedStore) (h : (tryAcquirePortLock p now port s).1 = false) :
    (tryAcquirePortLock p now port s).2.locks = s.locks := by
  cases h1 : (isActiveWindow p now s.activeWindow).1 with
  | false => simp [tryAcquirePortLock, h1]
  | true =>
    have h2 := isActiveWindow_stable p now s.activeWindow h1
    have h3 := tryAcquireAfterCheck_true p now port
      { s with activeWindow := (isActiveWindow p now s.activeWindow).2 } h2
    cases hl : s.locks port with
    | err => simp [tryAcquirePortLock, h1, hl]
    | absent =>
      rw [tryAcquirePortLock] at h
      simp only [h1, hl, Bool.not_true, Bool.false_eq_true, if_false] at h
      rw [h3.1] at h
      exact absurd h (by simp)
    | ok lockData =>
      by_cases hb : (now - lockData.timestamp < 30000 &&
          lockData.windowId != p.windowId) = true
      · simp [tryAcquirePortLock, h1, hl, hb]
      · rw [tryAcquirePortLock] at h
        simp only [h1, hl, Bool.not_true, Bool.false_eq_true, if_false,
          Bool.not_eq_true] at h
        rw [if_neg (by simp [Bool.not_eq_true] at hb ⊢; exact hb), h3.1] at h
        exact absurd h (by simp)

/-- Witness for C10: a passive peer (another window owns a fresh
active-window record) fails to acquire, and the lease files are untouched. -/
theorem tryAcquirePortLock_false_no_write_w :
    (tryAcquirePortLock ⟨"w1", 0⟩ 0 "5678"
      ⟨.ok ⟨"w2", 0, 0⟩, fun _ => .absent⟩).2.locks =
    (⟨.ok ⟨"w2", 0, 0⟩, fun _ => .absent⟩ : SharedStore).locks :=
  tryAcquirePortLock_false_no_write ⟨"w1", 0⟩ 0 "5678"
    ⟨.ok ⟨"w2", 0, 0⟩, fun _ => .absent⟩ (by decide)

/-- C3 (amended): while a foreign lease is younger than 30000 ms, the other
peer's `tryAcquirePortLock` returns false; once the window has elapsed the
call returns true provided the caller's active-window check passes at that
moment (A still being the live active window keeps B's call failing — see
the counterexample). -/
theorem tryAcquirePortLock_lease_window (B : Peer) (s : SharedStore) (K : String)
    (r : PortLockRecord) (now : Int)
    (hlock : s.locks K = .ok r) (hown : r.windowId ≠ B.windowId) :
    (now < r.timestamp + 30000 → (tryAcquirePortLock B now K s).1 = false) ∧
    (r.timestamp + 30000 ≤ now →
      (isActiveWindow B now s.activeWindow).1 = true →
      (tryAcquirePortLock B now K s).1 = true) := by
  constructor
  · intro hfresh
    cases h1 : (isActiveWindow B now s.activeWindow).1 with
    | false => simp [tryAcquirePortLock, h1]
    | true =>
      have h30 : now - r.timestamp < 30000 := by omega
      simp [tryAcquirePortLock, h1, hlock, h30, hown]
  · intro helapsed h1
    have h2 := isActiveWindow_stable B now s.activeWindow h1
    have h3 := tryAcquireAfterCheck_true B now K
      { s with activeWindow := (isActiveWindow B now s.activeWindow).2 } h2
    have hnb2 : (now - r.timestamp < 30000 && r.windowId != B.windowId) = false := by
      have hge : ¬ now - r.timestamp < 30000 := by omega
      simp [hge]
    simpa [tryAcquirePortLock, h1, hlock, hnb2] using h3.1

/-- Witness for C3 (amended): a foreign lease granted at time 0 blocks a
call at 10000 ms; at 100000 ms the window has elapsed and, the incumbent
having been silent past the liveness timeout (so the caller's check passes),
the call succeeds. -/
theorem tryAcquirePortLock_lease_window_w :
    (tryAcquirePortLock ⟨"B", 0⟩ 10000 "5678"
      ⟨.ok ⟨"A", 0, 0⟩, fun k => if k = "5678" then .ok ⟨"A", "5678", 0, 0⟩
        else .absent⟩).1 = false ∧
    (tryAcquirePortLock ⟨"B", 0⟩ 100000 "5678"
      ⟨.ok ⟨"A", 0, 0⟩, fun k => if k = "5678" then .ok ⟨"A", "5678", 0, 0⟩
        else .absent⟩).1 = true :=
  ⟨(tryAcquirePortLock_lease_window ⟨"B", 0⟩
      ⟨.ok ⟨"A", 0, 0⟩, fun k => if k = "5678" then .ok ⟨"A", "5678", 0, 0⟩
        else .absent⟩ "5678" ⟨"A", "5678", 0, 0⟩ 10000 (by simp) (by decide)).1
      (by decide),
   (tryAcquirePortLock_lease_window ⟨"B", 0⟩
      ⟨.ok ⟨"A", 0, 0⟩, fun k => if k = "5678" then .ok ⟨"A", "5678", 0, 0⟩
        else .absent⟩ "5678" ⟨"A", "5678", 0, 0⟩ 100000 (by simp) (by decide)).2
      (by decide) (by decide)⟩

/-- Counterexample to C3 as stated: the lease on port 5678 was granted at
time 0 and the 30000 ms validity window has long elapsed at time 100000, yet
peer B's `tryAcquirePortLock` still returns false, because peer A holds a
fresh active-window record (case 4 of the arbiter) — expiry of the lease
alone does not make B's acquisition succeed. -/
theorem tryAcquirePortLock_after_window_cex :
    ((0 : Int) + 30000 ≤ 100000) ∧
    (tryAcquirePortLock ⟨"B", 100000⟩ 100000 "5678"
      ⟨.ok ⟨"A", 100000, 100000⟩,
        fun k => if k = "5678" then .ok ⟨"A", "5678", 0, 0⟩ else .absent⟩).1
      = false := by
  constructor
  · decide
  · decide

/-- C5 (amended): read/parse failures on the active-window record are
treated as "record absent": the arbiter claims ownership and returns true.
But an I/O or parse error while reading the lease record inside
`tryAcquirePortLock` is caught by the function's own `catch` and makes the
whole call return false — the lease path fails closed, not open. -/
theorem errorHandling_split (p : Peer) (now : Int) (port : String)
    (s : SharedStore) :
    (isActiveWindow p now .err = (true, .ok (updateActiveWindow p now))) ∧
    (s.locks port = .err → (tryAcquirePortLock p now port s).1 = false) := by
  refine ⟨rfl, fun herr => ?_⟩
  cases h1 : (isActiveWindow p now s.activeWindow).1 with
  | false => simp [tryAcquirePortLock, h1]
  | true => simp [tryAcquirePortLock, h1, herr]

/-- Witness for C5 (amended): an unreadable lease file makes acquisition
fail even though the arbiter check succeeds. -/
theorem errorHandling_split_w :
    (isActiveWindow ⟨"w1", 0⟩ 0 .err = (true, .ok (updateActiveWindow ⟨"w1", 0⟩ 0))) ∧
    (tryAcquirePortLock ⟨"w1", 0⟩ 0 "5678" ⟨.absent, fun _ => .err⟩).1 = false :=
  ⟨(errorHandling_split ⟨"w1", 0⟩ 0 "5678" ⟨.absent, fun _ => .err⟩).1,
   (errorHandling_split ⟨"w1", 0⟩ 0 "5678" ⟨.absent, fun _ => .err⟩).2 rfl⟩

/-- Counterexample to C5 as stated: with the active-window file absent (the
check claims ownership and passes) and the lease file for the requested port
unreadable, the claim says the call behaves as if no blocking record existed
and returns true; the code's outer `catch` returns false instead. -/
theorem tryAcquirePortLock_err_cex :
    (tryAcquirePortLock ⟨"w1", 0⟩ 0 "5678" ⟨.absent, fun _ => .err⟩).1 = false := by
  decide

/-- C6: one run of the stale sweep deletes every readable record whose
`timestamp` age exceeds 60000 ms (whoever owns it), deletes every unreadable
record, and keeps every readable record aged at most 60000 ms. -/
theorem cleanupStaleLocks_spec (now : Int) (files : List SweepFile) :
    (∀ w t, SweepFile.parsed w t ∈ files → now - t > 60000 →
      SweepFile.parsed w t ∉ cleanupStaleLocks now files) ∧
    (SweepFile.corrupt ∉ cleanupStaleLocks now files) ∧
    (∀ w t, SweepFile.parsed w t ∈ files → now - t ≤ 60000 →
      SweepFile.parsed w t ∈ cleanupStaleLocks now files) := by
  refine ⟨fun w t hmem hage hkept => ?_, fun hmem => ?_, fun w t hmem hage => ?_⟩
  · rcases List.mem_filter.mp hkept with ⟨-, hkeep⟩
    simp [keepFile] at hkeep
    omega
  · rcases List.mem_filter.mp hmem with ⟨-, hkeep⟩
    simp [keepFile] at hkeep
  · exact List.mem_filter.mpr ⟨hmem, by simp [keepFile]; omega⟩

/-- Witness for C6: at time 60001, a record written at time 0 is swept, a
corrupt record is swept, and a record written at time 1 survives. -/
theorem cleanupStaleLocks_spec_w :
    SweepFile.parsed "a" 0 ∉
      cleanupStaleLocks 60001 [.parsed "a" 0, .corrupt, .parsed "b" 1] ∧
    SweepFile.corrupt ∉
      cleanupStaleLocks 60001 [.parsed "a" 0, .corrupt, .parsed "b" 1] ∧
    SweepFile.parsed "b" 1 ∈
      cleanupStaleLocks 60001 [.parsed "a" 0, .corrupt, .parsed "b" 1] :=
  ⟨(cleanupStaleLocks_spec 60001 [.parsed "a" 0, .corrupt, .parsed "b" 1]).1
      "a" 0 (by simp) (by omega),
   (cleanupStaleLocks_spec 60001 [.parsed "a" 0, .corrupt, .parsed "b" 1]).2.1,
   (cleanupStaleLocks_spec 60001 [.parsed "a" 0, .corrupt, .parsed "b" 1]).2.2
      "b" 1 (by simp) (by omega)⟩

/-- C7 (amended): the ActiveWindowRecord is deleted only by the Reaper
(`releasePortLock` never touches it), but the Reaper's sweep applies to it
the very same 60000 ms ceiling it applies to lease records — its file sits
in the swept directory and carries the same generic `timestamp` field — so
it is deleted as soon as its `writtenAt` age exceeds 60000 ms and kept
otherwise. -/
theorem activeWindow_reaper_horizon (p : Peer) (port : String) (s : SharedStore)
    (now : Int) (files : List SweepFile) (r : ActiveWindowRecord) :
    ((releasePortLock p port s).activeWindow = s.activeWindow) ∧
    (r.toSweepFile ∈ files → now - r.timestamp > 60000 →
      r.toSweepFile ∉ cleanupStaleLocks now files) ∧
    (r.toSweepFile ∈ files → now - r.timestamp ≤ 60000 →
      r.toSweepFile ∈ cleanupStaleLocks now files) := by
  refine ⟨?_, fun hmem hage hkept => ?_, fun hmem hage => ?_⟩
  · cases h : s.locks port with
    | ok lockData =>
      simp only [releasePortLock, h]
      split_ifs <;> rfl
    | err => simp [releasePortLock, h]
    | absent => simp [releasePortLock, h]
  · rcases List.mem_filter.mp hkept with ⟨-, hkeep⟩
    simp [ActiveWindowRecord.toSweepFile, keepFile] at hkeep
    omega
  · exact List.mem_filter.mpr
      ⟨hmem, by simp [ActiveWindowRecord.toSweepFile, keepFile]; omega⟩

/-- Witness for C7 (amended): releasing a self-owned lease does not touch
the active-window file, and an active-window record written at time 0 is
still in place at 60000 but swept at 60001. -/
theorem activeWindow_reaper_horizon_w :
    ((releasePortLock ⟨"w", 0⟩ "5678"
      ⟨.ok ⟨"w", 3, 3⟩, fun k => if k = "5678" then .ok ⟨"w", "5678", 0, 0⟩
        else .absent⟩).activeWindow = .ok ⟨"w", 3, 3⟩) ∧
    (ActiveWindowRecord.toSweepFile ⟨"w", 0, 0⟩ ∉
      cleanupStaleLocks 60001 [ActiveWindowRecord.toSweepFile ⟨"w", 0, 0⟩]) :=
  ⟨(activeWindow_reaper_horizon ⟨"w", 0⟩ "5678"
      ⟨.ok ⟨"w", 3, 3⟩, fun k => if k = "5678" then .ok ⟨"w", "5678", 0, 0⟩
        else .absent⟩ 60001 [ActiveWindowRecord.toSweepFile ⟨"w", 0, 0⟩]
      ⟨"w", 0, 0⟩).1,
   (activeWindow_reaper_horizon ⟨"w", 0⟩ "5678"
      ⟨.ok ⟨"w", 3, 3⟩, fun k => if k = "5678" then .ok ⟨"w", "5678", 0, 0⟩
        else .absent⟩ 60001 [ActiveWindowRecord.toSweepFile ⟨"w", 0, 0⟩]
      ⟨"w", 0, 0⟩).2.1 (by simp) (by decide)⟩

/-- Counterexample to C7 as stated: an ActiveWindowRecord whose `writtenAt`
age is only just past 60 seconds (written at 0, swept at 60001) IS deleted
by the stale sweep — the sweep applies the same 60 s ceiling to it as to
lease records, not a much longer horizon. -/
theorem activeWindow_swept_cex :
    cleanupStaleLocks 60001 [ActiveWindowRecord.toSweepFile ⟨"w", 0, 0⟩] = [] := by
  decide

/-- C9: after a poll has stored the discovered port set in `knownPorts`, a
second poll over the same process list computes an empty new-ports list, so
it attempts no lease acquisition and no attach. -/
theorem updateStatusBar_diff_idem (processes : List PythonProcess) :
    newPorts (updateStatusBar processes) processes = [] := by
  rw [newPorts, List.filter_eq_nil_iff]
  intro pr hpr
  simp [updateStatusBar]
  exact ⟨pr, hpr, rfl⟩

/-- Spec-side comparison definition for C8, following the spec's words: "at
most one tuple per distinct resource key (first match wins)" — keep the
first tuple carrying each port, dropping later ones (and any whose port is
in the initial seen set). -/
def firstMatchWinsByPort (seen : List String) : List PythonProcess → List PythonProcess
  | [] => []
  | pr :: ps =>
    if seen.contains pr.port then firstMatchWinsByPort seen ps
    else pr :: firstMatchWinsByPort (pr.port :: seen) ps

/-- The seen-set test inside `parseUnixProcess` is the only place `seenPorts`
is consulted: parsing with a seen set equals parsing with none and then
filtering on the port. -/
theorem parseUnixProcess_seen (seen : List String) (l : String) :
    parseUnixProcess seen l =
      (parseUnixProcess [] l).bind
        (fun pr => if seen.contains pr.port then none else some pr) := by
  unfold parseUnixProcess
  cases splitWsTokens l with
  | nil => rfl
  | cons pid rest =>
    cases rest with
    | nil => rfl
    | cons c0 crest =>
      simp only
      cases findPortIn (List.intercalate [' '] (c0 :: crest)) with
      | none => rfl
      | some ds => simp

/-- The accumulation loop is the first-match-wins filter: `processLines`
over any seen set equals appending the deduplicated seen-filtered parses. -/
theorem processLines_eq (ls : List String) :
    ∀ seen acc, processLines seen acc ls =
      acc ++ firstMatchWinsByPort seen (ls.filterMap (parseUnixProcess [])) := by
  induction ls with
  | nil => intro seen acc; simp [processLines, firstMatchWinsByPort]
  | cons l ls ih =>
    intro seen acc
    cases h : parseUnixProcess [] l with
    | none =>
      have h2 : parseUnixProcess seen l = none := by
        rw [parseUnixProcess_seen, h]; rfl
      simp only [processLines, h2, List.filterMap_cons, h]
      exact ih seen acc
    | some pr =>
      have h2 : parseUnixProcess seen l =
          if seen.contains pr.port then none else some pr := by
        rw [parseUnixProcess_seen, h]; rfl
      by_cases hc : seen.contains pr.port = true
      · simp only [processLines, h2, hc, if_true, List.filterMap_cons, h,
          firstMatchWinsByPort]
        exact ih seen acc
      · rw [processLines]
        rw [h2, if_neg (by simpa using hc)]
        simp only [List.filterMap_cons, h, firstMatchWinsByPort]
        rw [if_neg (by simpa using hc)]
        rw [ih (pr.port :: seen) (acc ++ [pr])]
        simp

/-- The deduplicated list has pairwise distinct ports, none of them in the
initial seen set. -/
theorem firstMatchWinsByPort_nodup (ps : List PythonProcess) :
    ∀ seen, ((firstMatchWinsByPort seen ps).map (fun pr => pr.port)).Nodup ∧
      ∀ x ∈ (firstMatchWinsByPort seen ps).map (fun pr => pr.port),
        ¬ x ∈ seen := by
  induction ps with
  | nil => intro seen; simp [firstMatchWinsByPort]
  | cons pr ps ih =>
    intro seen
    by_cases hc : seen.contains pr.port = true
    · simpa only [firstMatchWinsByPort, hc, if_true] using ih seen
    · obtain ⟨hnd, hni⟩ := ih (pr.port :: seen)
      simp only [firstMatchWinsByPort, hc, if_false, Bool.false_eq_true,
        List.map_cons, List.nodup_cons, List.mem_cons]
      have hmem : ¬ pr.port ∈
          (firstMatchWinsByPort (pr.port :: seen) ps).map (fun q => q.port) := by
        intro hm
        exact hni pr.port hm (by simp)
      refine ⟨⟨hmem, hnd⟩, ?_⟩
      rintro x (rfl | hx)
      · simpa using hc
      · intro hxs
        exact hni x hx (by simp [hxs])

/-- C8: the Unix discovery path returns at most one tuple per distinct port,
keeping the tuple of the first nonblank line that yields each port (the
result is exactly the first-match-wins deduplication of the per-line
parses), and an `exec` error or empty/blank output yields the empty list
(the callback only ever resolves, never rejects). -/
theorem findPythonProcesses_spec (err : Bool) (output : String) :
    (err = true → findPythonProcesses err output = []) ∧
    (jsTrim output = "" → findPythonProcesses err output = []) ∧
    (findPythonProcesses err output =
      if err || jsTrim output = "" then []
      else firstMatchWinsByPort [] ((splitLines output).filterMap (parseUnixProcess []))) ∧
    ((findPythonProcesses err output).map (fun pr => pr.port)).Nodup := by
  have href : findPythonProcesses err output =
      if err || jsTrim output = "" then []
      else firstMatchWinsByPort [] ((splitLines output).filterMap (parseUnixProcess [])) := by
    rw [findPythonProcesses]
    split_ifs with h
    · rfl
    · exact processLines_eq (splitLines output) [] []
  refine ⟨fun h => ?_, fun h => ?_, href, ?_⟩
  · simp [findPythonProcesses, h]
  · simp [findPythonProcesses, h]
  · rw [href]
    split_ifs
    · simp
    · exact (firstMatchWinsByPort_nodup
        ((splitLines output).filterMap (parseUnixProcess [])) []).1

/-- Witness for C8: on a three-line listing where two lines carry port 5678,
only the first is kept, the ports are distinct, and an errored command
yields the empty list. -/
theorem findPythonProcesses_spec_w :
    findPythonProcesses false
      "12 python app.py --port 5678\n13 python other.py --port 5678\n14 python b.py --port 5679" =
      firstMatchWinsByPort []
        ((splitLines
          "12 python app.py --port 5678\n13 python other.py --port 5678\n14 python b.py --port 5679").filterMap
          (parseUnixProcess [])) ∧
    findPythonProcesses true "12 python app.py --port 5678" = [] := by
  constructor
  · have h := (findPythonProcesses_spec false
      "12 python app.py --port 5678\n13 python other.py --port 5678\n14 python b.py --port 5679").2.2.1
    rwa [if_neg (by decide)] at h
  · exact (findPythonProcesses_spec true "12 python app.py --port 5678").1 rfl
